import Mathlib

/-!
Verification development for the per-connection session engine of ssh-chat
(src/client.go).  The Go code is shallowly embedded: pure helpers from the
Go standard library used by the source are reimplemented as executable Lean
functions, the mutable `Client` struct becomes a record, and the effectful
command loop body (`handleShell`) becomes a pure transition function on a
`World` record that carries every client's state together with a log of the
registry calls the session makes.  The `Server` registry and the binary
pty-payload parsers are not part of src/; where they are needed they are
modelled from the specification and marked as such.
-/

namespace SshChat

/-! ### Go standard-library string helpers used by src/client.go -/

/-- UTF-8 byte size of one character, as Go counts it (`len` on a string
counts bytes). -/
def charUtf8Size (c : Char) : Nat :=
  if c.toNat < 128 then 1
  else if c.toNat < 2048 then 2
  else if c.toNat < 65536 then 3
  else 4

/-- Go `len(s)` for a string: the number of UTF-8 bytes. -/
def goLen (s : String) : Nat :=
  s.data.foldl (fun n c => n + charUtf8Size c) 0

/-- Go `strings.HasPrefix(s, "/")`: the line carries the command sigil. -/
def hasSigil (s : String) : Bool :=
  match s.data with
  | '/' :: _ => true
  | _ => false

/-- Split a character list at the first occurrence of `sep`, returning the
characters before it and the characters after it, or `none` when `sep`
does not occur. -/
def breakCh (sep : Char) : List Char → Option (List Char × List Char)
  | [] => none
  | c :: cs =>
    if c = sep then some ([], cs)
    else
      match breakCh sep cs with
      | none => none
      | some (pre, post) => some (c :: pre, post)

/-- Go `strings.SplitN(s, " ", n)` for the single-space separator: at most
`n` substrings, the last one holding the unsplit remainder. -/
def goSplitNSpace : Nat → List Char → List String
  | 0, _ => []
  | 1, cs => [String.mk cs]
  | n + 2, cs =>
    match breakCh ' ' cs with
    | none => [String.mk cs]
    | some (pre, post) => String.mk pre :: goSplitNSpace (n + 1) post

/-- Helper for `goSplitCh`: accumulates the current field (reversed). -/
def splitChAux (sep : Char) : List Char → List Char → List String
  | [], acc => [String.mk acc.reverse]
  | c :: cs, acc =>
    if c = sep then String.mk acc.reverse :: splitChAux sep cs []
    else splitChAux sep cs (c :: acc)

/-- Go `strings.Split(s, sep)` for a single-character separator. -/
def goSplitCh (s : String) (sep : Char) : List String :=
  splitChAux sep s.data []

/-- Go `strings.TrimLeft(s, cutset)`: drops leading characters that occur
anywhere in `cutset` (a character set, not a prefix). -/
def goTrimLeft (s cutset : String) : String :=
  String.mk (s.data.dropWhile (fun c => cutset.data.contains c))

/-! ### Go `time.Duration` printing (`Duration.String`)

Durations are modelled as `Int` nanoseconds, times as `Int` nanoseconds
since an arbitrary epoch (`time.Time.After` is strict comparison). -/

/-- Decimal digits of `n` left-padded with zeros to width `len`. -/
def padDigits (n : Nat) (len : Nat) : List Char :=
  let s := (toString n).data
  List.replicate (len - s.length) '0' ++ s

/-- Remove trailing `'0'` characters (Go's fraction printing omits them). -/
def dropTrailingZeros (l : List Char) : List Char :=
  (l.reverse.dropWhile (fun c => c = '0')).reverse

/-- Go `fmtFrac`: the fraction suffix (with leading dot, trailing zeros
stripped, empty when the fraction is zero) and the remaining integer part. -/
def fmtFrac (v : Nat) (prec : Nat) : String × Nat :=
  let frac := v % 10 ^ prec
  let rest := v / 10 ^ prec
  if frac = 0 then ("", rest)
  else ("." ++ String.mk (dropTrailingZeros (padDigits frac prec)), rest)

/-- Go `time.Duration.String()` on an `Int` number of nanoseconds. -/
def goDurationString (d : Int) : String :=
  let u := d.natAbs
  let body :=
    if u < 1000000000 then
      if u = 0 then "0s"
      else if u < 1000 then toString u ++ "ns"
      else if u < 1000000 then
        let fr := fmtFrac u 3
        toString fr.2 ++ fr.1 ++ "µs"
      else
        let fr := fmtFrac u 6
        toString fr.2 ++ fr.1 ++ "ms"
    else
      let fr := fmtFrac u 9
      let secPart := toString (fr.2 % 60) ++ fr.1 ++ "s"
      let mins := fr.2 / 60
      if mins = 0 then secPart
      else
        let minPart := toString (mins % 60) ++ "m"
        let hrs := mins / 60
        if hrs = 0 then minPart ++ secPart
        else toString hrs ++ "h" ++ minPart ++ secPart
  if d < 0 then "-" ++ body else body

/-! ### Go `time.ParseDuration`

Modelled from the documented grammar of Go's `time.ParseDuration` (the
source calls it for the `/silence` duration token): an optional sign, then
one or more decimal numbers (with optional fraction) each followed by a
unit among ns, us, µs, μs, ms, s, m, h; the bare string "0" (after the
sign) is accepted with value zero.  The fractional contribution is
computed exactly where Go uses float64 arithmetic, and int64 overflow is
not modelled; neither difference is observable on the inputs any claim
touches. -/

/-- Consume leading decimal digits: value, number of digits, rest. -/
def leadingIntAux : List Char → Nat → Nat → Nat × Nat × List Char
  | [], v, n => (v, n, [])
  | c :: cs, v, n =>
    if '0' ≤ c ∧ c ≤ '9' then leadingIntAux cs (v * 10 + (c.toNat - 48)) (n + 1)
    else (v, n, c :: cs)

/-- Consume leading fraction digits: numerator, scale `10 ^ count`, count,
rest. -/
def leadingFracAux : List Char → Nat → Nat → Nat → Nat × Nat × Nat × List Char
  | [], f, scale, n => (f, scale, n, [])
  | c :: cs, f, scale, n =>
    if '0' ≤ c ∧ c ≤ '9' then leadingFracAux cs (f * 10 + (c.toNat - 48)) (scale * 10) (n + 1)
    else (f, scale, n, c :: cs)

/-- The unit table of `time.ParseDuration`, in nanoseconds. -/
def unitMap (u : String) : Option Nat :=
  if u = "ns" then some 1
  else if u = "us" then some 1000
  else if u = "µs" then some 1000
  else if u = "μs" then some 1000
  else if u = "ms" then some 1000000
  else if u = "s" then some 1000000000
  else if u = "m" then some 60000000000
  else if u = "h" then some 3600000000000
  else none

/-- One pass of the `ParseDuration` loop, fuelled by the input length
(each iteration consumes at least the unit character). -/
def parseTermsAux : Nat → List Char → Nat → Option Nat
  | 0, _, _ => none
  | _ + 1, [], acc => some acc
  | fuel + 1, c :: cs, acc =>
    if c = '.' ∨ ('0' ≤ c ∧ c ≤ '9') then
      let li := leadingIntAux (c :: cs) 0 0
      let fr :=
        match li.2.2 with
        | '.' :: t => leadingFracAux t 0 1 0
        | other => (0, 1, 0, other)
      if li.2.1 = 0 ∧ fr.2.2.1 = 0 then none
      else
        let sp := fr.2.2.2.span (fun ch => decide (¬(ch = '.' ∨ ('0' ≤ ch ∧ ch ≤ '9'))))
        if sp.1 = [] then none
        else
          match unitMap (String.mk sp.1) with
          | none => none
          | some unit => parseTermsAux fuel sp.2 (acc + (li.1 * unit + fr.1 * unit / fr.2.1))
    else none

/-- Go `time.ParseDuration`, returning nanoseconds. -/
def parseDuration (s : String) : Option Int :=
  let cs := s.data
  let signed :=
    match cs with
    | '-' :: t => (true, t)
    | '+' :: t => (false, t)
    | _ => (false, cs)
  if signed.2 = ['0'] then some 0
  else if signed.2 = [] then none
  else
    match parseTermsAux (signed.2.length + 1) signed.2 0 with
    | none => none
    | some n => some (if signed.1 then -(n : Int) else (n : Int))

example : parseDuration "10s" = some 10000000000 := by decide
example : parseDuration "-5m" = some (-300000000000) := by decide
example : parseDuration "abc123" = none := by decide
example : parseDuration "" = none := by decide
example : parseDuration "0" = some 0 := by decide
example : parseDuration "1h30m" = some 5400000000000 := by decide
example : parseDuration "1.5s" = some 1500000000 := by decide
example : parseDuration "3" = none := by decide
example : goDurationString 10000000000 = "10s" := by decide
example : goDurationString 300000000000 = "5m0s" := by decide
example : goDurationString 1500000000 = "1.5s" := by decide
example : goDurationString (-300000000000) = "-5m0s" := by decide
example : goDurationString 0 = "0s" := by decide
example : goDurationString 3661000000000 = "1h1m1s" := by decide

example : goSplitNSpace 3 "a b c d".data = ["a", "b", "c d"] := by decide
example : goSplitNSpace 3 "".data = [""] := by decide
example : goSplitNSpace 3 "/silence bob 10s".data = ["/silence", "bob", "10s"] := by decide
example : goTrimLeft "/me waves" "/me" = " waves" := by decide
example : goTrimLeft "/me" "/me" = "" := by decide

/-! ### The per-connection session state (`Client` in src/client.go)

Times are `Int` nanoseconds; the Go zero `time.Time` (the default of
`silencedUntil`) is modelled as `0`, with "now" values understood relative
to the same epoch.  The mailbox `Msg` becomes the list `msgs` of enqueued
lines (enqueue order), and lines written directly to the terminal by
`Write`/`WriteLines` become the list `termLines`. -/

def MSG_BUFFER : Nat := 10

def HELP_TEXT : String :=
  "-> Available commands:\n   /about\n   /exit\n   /help\n   /list\n   /nick $NAME\n   /whois $NAME\n"

def ABOUT_TEXT : String :=
  "-> ssh-chat is made by @shazow.\n\n   It is a custom ssh server built in Go to serve a chat experience\n   instead of a shell.\n\n   Source: https://github.com/shazow/ssh-chat\n\n   For more, visit shazow.net or follow at twitter.com/shazow\n"

structure Client where
  name : String
  fingerprint : String
  clientVersion : String
  op : Bool
  silencedUntil : Int
  msgs : List String
  termLines : List String
  deriving Repr, DecidableEq

/-- `Client.IsSilenced`: `silencedUntil.After(time.Now())`, i.e. the expiry
is strictly after the current time. -/
def Client.IsSilenced (c : Client) (now : Int) : Bool :=
  decide (now < c.silencedUntil)

/-- `Client.Silence(d)`: `silencedUntil = time.Now().Add(d)`. -/
def Client.Silence (c : Client) (now : Int) (d : Int) : Client :=
  { c with silencedUntil := now + d }

/-! ### The world: every client plus the registry state and call log

`Server` is not under src/; the parts of it the command loop observes are
modelled from the specification: `lookup(name)` returns a registered
session or none, `isOperator(session)` answers from the operator store
keyed by fingerprint, `grantOperator(fingerprint)` and `ban(fingerprint)`
mutate those stores, and `broadcast(message, excludeSessionOrNone)` is an
external delivery whose invocation (with its exclusion choice) is
recorded in an event log. -/

inductive REvent where
  | broadcast : String → Bool → REvent
  | rename : String → REvent
  | ban : String → REvent
  | opGrant : String → REvent
  | closeConn : Nat → REvent
  | closeSelf : REvent
  deriving Repr, DecidableEq

structure World where
  clients : List Client
  ops : List String
  bans : List String
  events : List REvent
  deriving Repr, DecidableEq

/-- Replace the element at index `i` by `f` of it (out of range: no-op). -/
def modifyAt {α : Type} (i : Nat) (f : α → α) : List α → List α
  | [] => []
  | c :: cs =>
    match i with
    | 0 => f c :: cs
    | j + 1 => c :: modifyAt j f cs

/-- Modelled from the spec: the registry's `isOperator(session)` check,
answered from the operator store keyed by the session's fingerprint. -/
def World.IsOp (w : World) (c : Client) : Bool :=
  w.ops.contains c.fingerprint

/-- Modelled from the spec: the registry's `lookup(name)` (`Server.Who`),
returning the first registered client with that name and its index. -/
def findClient (n : String) : Nat → List Client → Option (Nat × Client)
  | _, [] => none
  | i, c :: cs => if c.name = n then some (i, c) else findClient n (i + 1) cs

/-- `c.Msg <- s`: enqueue one line to the mailbox of client `i`. -/
def enqueueSelf (w : World) (i : Nat) (s : String) : World :=
  { w with clients := modifyAt i (fun c => { c with msgs := c.msgs ++ [s] }) w.clients }

/-- `client.Write(s)`: write one line directly to the terminal of client
`j`, bypassing the mailbox. -/
def writeTo (w : World) (j : Nat) (s : String) : World :=
  { w with clients := modifyAt j (fun c => { c with termLines := c.termLines ++ [s] }) w.clients }

/-- `c.WriteLines(ls)`: write each line in order directly to the terminal
of client `i`. -/
def writeLinesTo (w : World) (i : Nat) (ls : List String) : World :=
  { w with clients := modifyAt i (fun c => { c with termLines := c.termLines ++ ls }) w.clients }

/-- The body of the `handleShell` read loop for one input line, issued by
the client at index `i` at time `now`: the verbatim dispatch of
src/client.go lines 116-228. -/
def handleLine (now : Int) (i : Nat) (w : World) (line : String) : World :=
  (w.clients.get? i).elim w (fun self =>
    let parts := goSplitNSpace 3 line.data
    let verb := parts.headD ""
    if hasSigil verb then
      if verb = "/exit" then { w with events := w.events ++ [REvent.closeSelf] }
      else if verb = "/help" then writeLinesTo w i (goSplitCh HELP_TEXT '\n')
      else if verb = "/about" then writeLinesTo w i (goSplitCh ABOUT_TEXT '\n')
      else if verb = "/me" then
        let me0 := goTrimLeft line "/me"
        let me := if me0 = "" then " is at a loss for words." else me0
        let msg := "** " ++ self.name ++ me
        if self.IsSilenced now || decide (goLen msg > 1000) then
          enqueueSelf w i "-> Message rejected."
        else
          { w with events := w.events ++ [REvent.broadcast msg false] }
      else if verb = "/nick" then
        if parts.length = 2 then { w with events := w.events ++ [REvent.rename (parts.getD 1 "")] }
        else enqueueSelf w i "-> Missing $NAME from: /nick $NAME"
      else if verb = "/whois" then
        if parts.length = 2 then
          (findClient (parts.getD 1 "") 0 w.clients).elim
            (enqueueSelf w i ("-> No such name: " ++ parts.getD 1 ""))
            (fun jc =>
              let version :=
                if goLen jc.2.clientVersion > 100 then "Evil Jerk with a superlong string"
                else jc.2.clientVersion
              enqueueSelf w i ("-> " ++ jc.2.name ++ " is " ++ jc.2.fingerprint ++ " via " ++ version))
        else enqueueSelf w i "-> Missing $NAME from: /whois $NAME"
      else if verb = "/list" then
        let names := w.clients.map Client.name
        enqueueSelf w i ("-> " ++ toString names.length ++ " connected: " ++ String.intercalate ", " names)
      else if verb = "/ban" then
        if !(w.IsOp self) then enqueueSelf w i "-> You're not an admin."
        else if ¬(parts.length = 2) then enqueueSelf w i "-> Missing $NAME from: /ban $NAME"
        else
          (findClient (parts.getD 1 "") 0 w.clients).elim
            (enqueueSelf w i ("-> No such name: " ++ parts.getD 1 ""))
            (fun jc =>
              let w1 := writeTo w jc.1 ("-> Banned by " ++ self.name ++ ".")
              { w1 with
                bans := w1.bans ++ [jc.2.fingerprint],
                events := w1.events ++
                  [REvent.ban jc.2.fingerprint, REvent.closeConn jc.1,
                   REvent.broadcast ("* " ++ parts.getD 1 "" ++ " was banned by " ++ self.name) false] })
      else if verb = "/op" then
        if !(w.IsOp self) then enqueueSelf w i "-> You're not an admin."
        else if ¬(parts.length = 2) then enqueueSelf w i "-> Missing $NAME from: /op $NAME"
        else
          (findClient (parts.getD 1 "") 0 w.clients).elim
            (enqueueSelf w i ("-> No such name: " ++ parts.getD 1 ""))
            (fun jc =>
              let w1 := writeTo w jc.1 ("-> Made op by " ++ self.name ++ ".")
              { w1 with
                ops := w1.ops ++ [jc.2.fingerprint],
                events := w1.events ++ [REvent.opGrant jc.2.fingerprint] })
      else if verb = "/silence" then
        if !(w.IsOp self) then enqueueSelf w i "-> You're not an admin."
        else if parts.length < 2 then enqueueSelf w i "-> Missing $NAME from: /silence $NAME"
        else
          let duration :=
            if parts.length ≥ 3 then
              (parseDuration (parts.getD 2 "")).getD 300000000000
            else 300000000000
          (findClient (parts.getD 1 "") 0 w.clients).elim
            (enqueueSelf w i ("-> No such name: " ++ parts.getD 1 ""))
            (fun jc =>
              let w1 := { w with clients := modifyAt jc.1 (fun c => c.Silence now duration) w.clients }
              writeTo w1 jc.1
                ("-> Silenced for " ++ goDurationString duration ++ " by " ++ self.name ++ "."))
      else enqueueSelf w i ("-> Invalid command: " ++ line)
    else
      let msg := self.name ++ ": " ++ line
      if self.IsSilenced now || decide (goLen msg > 1000) then
        enqueueSelf w i "-> Message rejected."
      else
        { w with events := w.events ++ [REvent.broadcast msg true] })

/-! ### Channel negotiation (`handleChannels` in src/client.go)

Payload bytes are `Nat`s reduced mod 256 where they are consumed.  The
terminal's `SetSize` is external (it can fail, src/client.go line 75-79);
its success is an oracle parameter `setSizeOk`.  The payload parsers
`parsePtyRequest` / `parseWinchRequest` are not under src/ and are
modelled from the specification. -/

/-- Read a 32-bit big-endian integer from the front of a byte list. -/
def readUint32 : List Nat → Option (Nat × List Nat)
  | b0 :: b1 :: b2 :: b3 :: rest =>
    some ((b0 % 256) * 16777216 + (b1 % 256) * 65536 + (b2 % 256) * 256 + b3 % 256, rest)
  | _ => none

/-- Modelled from the spec: `parsePtyRequest` is not under src/.  The spec
says the pty-req payload follows the standard fixed binary layout
(length-prefixed terminal-name string, then width, height, pixel width,
pixel height, modes), of which only width and height are consumed; any
truncation fails the parse. -/
def parsePtyRequest (p : List Nat) : Option (Nat × Nat) :=
  match readUint32 p with
  | none => none
  | some (n, r1) =>
    if n ≤ r1.length then
      match readUint32 (r1.drop n) with
      | none => none
      | some (wd, r2) =>
        match readUint32 r2 with
        | none => none
        | some (ht, _) => some (wd, ht)
    else none

/-- Modelled from the spec: `parseWinchRequest` is not under src/.  The
window-change payload begins with width and height as 32-bit big-endian
integers; any truncation fails the parse. -/
def parseWinchRequest (p : List Nat) : Option (Nat × Nat) :=
  match readUint32 p with
  | none => none
  | some (wd, r1) =>
    match readUint32 r1 with
    | none => none
    | some (ht, _) => some (wd, ht)

inductive ReqType where
  | shell : ReqType
  | ptyReq : List Nat → ReqType
  | windowChange : List Nat → ReqType
  | other : String → ReqType
  deriving Repr, DecidableEq

structure ChanRequest where
  rtype : ReqType
  wantReply : Bool
  deriving Repr, DecidableEq

/-- The dispatcher state for one `handleChannels` invocation (one
connection): the one-shot shell flag, the stored terminal geometry, the
number of `handleShell` command loops spawned, and, for every processed
request in order, the request together with the `ok` value the code
computed for it (the reply sent when `WantReply` is set). -/
structure DState where
  hasShell : Bool
  termWidth : Nat
  termHeight : Nat
  spawns : Nat
  outcomes : List (ChanRequest × Bool)
  deriving Repr, DecidableEq

def initDState : DState :=
  { hasShell := false, termWidth := 0, termHeight := 0, spawns := 0, outcomes := [] }

/-- `Client.Resize`: on `SetSize` failure returns the error and leaves the
stored geometry unchanged; on success stores both values. -/
def Resize (setSizeOk : Nat → Nat → Bool) (st : DState) (width height : Nat) : DState × Bool :=
  if setSizeOk width height then ({ st with termWidth := width, termHeight := height }, true)
  else (st, false)

/-- Apply a parsed geometry: parse failure leaves the state unchanged with
a negative outcome, parse success defers to `Resize`. -/
def applyGeom (setSizeOk : Nat → Nat → Bool) (st : DState) :
    Option (Nat × Nat) → DState × Bool
  | none => (st, false)
  | some (wd, ht) => Resize setSizeOk st wd ht

/-- One iteration of the request loop of `handleChannels` (src/client.go
lines 251-279): `ok` defaults to `false`; a `shell` request is honored
only when the one-shot flag is still clear. -/
def processRequest (setSizeOk : Nat → Nat → Bool) (st : DState) (req : ChanRequest) : DState :=
  let step :=
    match req.rtype with
    | ReqType.shell =>
      if !st.hasShell then ({ st with hasShell := true, spawns := st.spawns + 1 }, true)
      else (st, false)
    | ReqType.ptyReq p => applyGeom setSizeOk st (parsePtyRequest p)
    | ReqType.windowChange p => applyGeom setSizeOk st (parseWinchRequest p)
    | ReqType.other _ => (st, false)
  { step.1 with outcomes := step.1.outcomes ++ [(req, step.2)] }

structure NewChannel where
  chanType : String
  acceptOk : Bool
  reqs : List ChanRequest
  deriving Repr, DecidableEq

/-- The channel loop of `handleChannels`: non-"session" channels are
rejected, channels whose accept fails are skipped, and the requests of
each accepted session channel are processed in order against the single
connection-scoped state (the `hasShell` flag is declared outside the
channel loop, src/client.go line 235). -/
def runChannels (setSizeOk : Nat → Nat → Bool) : DState → List NewChannel → DState
  | st, [] => st
  | st, ch :: rest =>
    runChannels setSizeOk
      (if ch.chanType = "session" ∧ ch.acceptOk = true then
        ch.reqs.foldl (processRequest setSizeOk) st
       else st) rest

/-- `Client.handleChannels` over a whole connection. -/
def handleChannels (setSizeOk : Nat → Nat → Bool) (chans : List NewChannel) : DState :=
  runChannels setSizeOk initDState chans

/-- The rejection messages sent for non-"session" channels. -/
def rejectsOf (chans : List NewChannel) : List String :=
  (chans.filter (fun ch => decide (¬ch.chanType = "session"))).map
    (fun ch => "unknown channel type: " ++ ch.chanType)

/-- The outcomes computed for the `shell` requests in an outcome list,
in order. -/
def shellOutsL (l : List (ChanRequest × Bool)) : List Bool :=
  (l.filter (fun rc => decide (rc.1.rtype = ReqType.shell))).map (fun rc => rc.2)

/-- The outcome computed for every `shell` request of the run, in order. -/
def shellOutcomes (st : DState) : List Bool :=
  shellOutsL st.outcomes

/-- Number of shell requests in one request list. -/
def countShellReqList (rs : List ChanRequest) : Nat :=
  (rs.filter (fun r => decide (r.rtype = ReqType.shell))).length

/-- Number of shell requests arriving on accepted session channels. -/
def countShellChans : List NewChannel → Nat
  | [] => 0
  | ch :: rest =>
    (if ch.chanType = "session" ∧ ch.acceptOk = true then countShellReqList ch.reqs else 0) +
      countShellChans rest

/-- The outcome pattern of a connection-scoped one-shot guard: the first
shell request succeeds, every later one fails. -/
def shellPattern : Nat → List Bool
  | 0 => []
  | n + 1 => true :: List.replicate n false

/-! ### Demo fixtures for witnesses and counterexamples -/

def alice : Client :=
  { name := "alice", fingerprint := "fp-alice", clientVersion := "SSH-2.0-demo",
    op := false, silencedUntil := 0, msgs := [], termLines := [] }

def bob : Client :=
  { name := "bob", fingerprint := "fp-bob", clientVersion := "SSH-2.0-demo",
    op := false, silencedUntil := 0, msgs := [], termLines := [] }

/-- A two-client world in which alice is an operator. -/
def demoW : World :=
  { clients := [alice, bob], ops := ["fp-alice"], bans := [], events := [] }

/-- The same world with no operators. -/
def demoWNoOp : World :=
  { clients := [alice, bob], ops := [], bans := [], events := [] }

example :
    (handleLine 0 0 demoW "/silence bob 10s").clients.get? 1 =
      some { bob with silencedUntil := 10000000000,
                      termLines := ["-> Silenced for 10s by alice."] } := by decide

example :
    handleLine 0 0 demoWNoOp "/ban bob" =
      enqueueSelf demoWNoOp 0 "-> You're not an admin." := by decide

example :
    handleLine 0 0 demoW "hello" =
      { demoW with events := [REvent.broadcast "alice: hello" true] } := by decide

example :
    (handleLine 5 0 { demoW with clients := [{ alice with silencedUntil := 10 }, bob] }
      "hello").clients.get? 0 =
      some { alice with silencedUntil := 10, msgs := ["-> Message rejected."] } := by decide

example :
    (handleLine 0 0 demoW "/help").clients.get? 0 =
      some { alice with termLines := goSplitCh HELP_TEXT '\n' } := by decide

example : ((handleLine 0 0 demoW "/help").clients.get? 0).map Client.msgs = some [] := by decide

example :
    handleLine 0 0 demoW "/me waves" =
      { demoW with events := [REvent.broadcast "** alice waves" false] } := by decide

example :
    handleLine 0 0 demoW "/me" =
      { demoW with events := [REvent.broadcast "** alice is at a loss for words." false] } := by
  decide

def demoChans : List NewChannel :=
  [{ chanType := "session", acceptOk := true, reqs := [{ rtype := ReqType.shell, wantReply := true }] },
   { chanType := "session", acceptOk := true, reqs := [{ rtype := ReqType.shell, wantReply := true }] }]

example : shellOutcomes (handleChannels (fun _ _ => true) demoChans) = [true, false] := by decide
example : (handleChannels (fun _ _ => true) demoChans).spawns = 1 := by decide

/-! ### Helper lemmas -/

theorem modifyAt_get?_self {α : Type} (i : Nat) (f : α → α) (l : List α) :
    (modifyAt i f l)[i]? = l[i]?.map f := by
  induction l generalizing i with
  | nil => simp [modifyAt]
  | cons c cs ih =>
    cases i with
    | zero => simp [modifyAt]
    | succ j => simpa [modifyAt] using ih j

theorem modifyAt_get?_ne {α : Type} (i j : Nat) (f : α → α) (l : List α) (h : ¬j = i) :
    (modifyAt i f l)[j]? = l[j]? := by
  induction l generalizing i j with
  | nil => simp [modifyAt]
  | cons c cs ih =>
    cases i with
    | zero =>
      cases j with
      | zero => exact absurd rfl h
      | succ k => simp [modifyAt]
    | succ i2 =>
      cases j with
      | zero => simp [modifyAt]
      | succ k => simpa [modifyAt] using ih i2 k (fun hk => h (by rw [hk]))

theorem strData_append (a b : String) : (a ++ b).data = a.data ++ b.data := by
  cases a
  cases b
  rfl

theorem ne_of_nthChar (s t : String) (n : Nat) (c d : Char) (hc : s.data[n]? = some c)
    (hd : t.data[n]? = some d) (hcd : ¬c = d) : ¬s = t := by
  intro h
  subst h
  rw [hc] at hd
  injection hd with h2
  exact hcd h2

/-! ### Claim theorems -/

/-- Claim C7: `Silence(d)` sets `silencedUntil` to `now + d`, overwriting
any previous value rather than extending it; a shorter duration issued
after a longer one (at the same instant) strictly shortens the effective
silence window. -/
theorem silence_overwrites (c : Client) (now d1 d2 : Int) :
    (Client.Silence (Client.Silence c now d1) now d2).silencedUntil = now + d2 ∧
    (d2 < d1 →
      (Client.Silence (Client.Silence c now d1) now d2).silencedUntil <
        (Client.Silence c now d1).silencedUntil) := by
  refine ⟨rfl, fun h => ?_⟩
  simp only [Client.Silence]
  omega

/-- Witness for C7 at a concrete client and durations 600 and 10. -/
theorem silence_overwrites_witness :
    (Client.Silence (Client.Silence alice 0 600) 0 10).silencedUntil = 0 + 10 ∧
    (Client.Silence (Client.Silence alice 0 600) 0 10).silencedUntil <
      (Client.Silence alice 0 600).silencedUntil :=
  ⟨(silence_overwrites alice 0 600 10).1, (silence_overwrites alice 0 600 10).2 (by decide)⟩

/-- Claim C10: immediately after `Silence(d)` with `d ≤ 0`, `IsSilenced`
is false, and the standard duration grammar indeed accepts negative
tokens such as "-5m", so an operator can cut short or lift a silence. -/
theorem nonpositive_silence_lifts (c : Client) (now d : Int) (h : d ≤ 0) :
    Client.IsSilenced (Client.Silence c now d) now = false ∧
    parseDuration "-5m" = some (-300000000000) := by
  refine ⟨?_, by decide⟩
  simp only [Client.IsSilenced, Client.Silence, decide_eq_false_iff_not, not_lt]
  omega

/-- Witness for C10 at a concrete client, `now = 5`, `d = -3`. -/
theorem nonpositive_silence_lifts_witness :
    Client.IsSilenced (Client.Silence alice 5 (-3)) 5 = false ∧
    parseDuration "-5m" = some (-300000000000) :=
  nonpositive_silence_lifts alice 5 (-3) (by decide)

/-- Claim C6: for every pty-req or window-change request, the computed
reply is success iff both the payload parse and the resize succeed; a
malformed payload yields a negative reply and leaves the stored geometry
unchanged, and a failing resize also leaves the stored geometry
unchanged. -/
theorem pty_winch_requests (setSizeOk : Nat → Nat → Bool) (st : DState) (p : List Nat)
    (wr : Bool) :
    (processRequest setSizeOk st { rtype := ReqType.ptyReq p, wantReply := wr } =
      { (applyGeom setSizeOk st (parsePtyRequest p)).1 with
        outcomes := (applyGeom setSizeOk st (parsePtyRequest p)).1.outcomes ++
          [({ rtype := ReqType.ptyReq p, wantReply := wr },
            (applyGeom setSizeOk st (parsePtyRequest p)).2)] }) ∧
    (processRequest setSizeOk st { rtype := ReqType.windowChange p, wantReply := wr } =
      { (applyGeom setSizeOk st (parseWinchRequest p)).1 with
        outcomes := (applyGeom setSizeOk st (parseWinchRequest p)).1.outcomes ++
          [({ rtype := ReqType.windowChange p, wantReply := wr },
            (applyGeom setSizeOk st (parseWinchRequest p)).2)] }) ∧
    (parsePtyRequest p = none →
      processRequest setSizeOk st { rtype := ReqType.ptyReq p, wantReply := wr } =
        { st with outcomes := st.outcomes ++
            [({ rtype := ReqType.ptyReq p, wantReply := wr }, false)] }) ∧
    (parseWinchRequest p = none →
      processRequest setSizeOk st { rtype := ReqType.windowChange p, wantReply := wr } =
        { st with outcomes := st.outcomes ++
            [({ rtype := ReqType.windowChange p, wantReply := wr }, false)] }) ∧
    (∀ parsed : Option (Nat × Nat),
      ((applyGeom setSizeOk st parsed).2 = true ↔
        ∃ wd ht, parsed = some (wd, ht) ∧ setSizeOk wd ht = true) ∧
      ((applyGeom setSizeOk st parsed).2 = false →
        (applyGeom setSizeOk st parsed).1.termWidth = st.termWidth ∧
        (applyGeom setSizeOk st parsed).1.termHeight = st.termHeight)) := by
  refine ⟨rfl, rfl, fun h => ?_, fun h => ?_, fun parsed => ?_⟩
  · simp [processRequest, applyGeom, h]
  · simp [processRequest, applyGeom, h]
  · match parsed with
    | none => simp [applyGeom]
    | some (wd, ht) =>
      by_cases hs : setSizeOk wd ht = true
      · simp [applyGeom, Resize, hs]
        exact ⟨wd, ht, ⟨rfl, rfl⟩, hs⟩
      · simp only [Bool.not_eq_true] at hs
        simp [applyGeom, Resize, hs]

/-- Witness for C6: a truncated pty payload (three bytes) parses to
`none`, so the request yields a negative outcome and no geometry change. -/
theorem pty_winch_requests_witness :
    parsePtyRequest [0, 0, 0] = none ∧
    processRequest (fun _ _ => true) initDState
      { rtype := ReqType.ptyReq [0, 0, 0], wantReply := true } =
      { initDState with outcomes :=
          [({ rtype := ReqType.ptyReq [0, 0, 0], wantReply := true }, false)] } :=
  ⟨by decide,
    (pty_winch_requests (fun _ _ => true) initDState [0, 0, 0] true).2.2.1 (by decide)⟩

/-- A silenced copy of alice and the corresponding world (for witnesses). -/
def silencedAlice : Client := { alice with silencedUntil := 10 }

def wSil : World := { demoW with clients := [silencedAlice, bob] }

/-- Claim C1: an input line whose first token has no command sigil is chat,
formatted `"name: text"`; if the sender is silenced or the formatted
message is longer than 1000 bytes, no broadcast happens and exactly one
`"-> Message rejected."` notice is enqueued to the sender's own mailbox;
otherwise the message is broadcast with the sender excluded from the
echo. -/
theorem chat_message_gate (now : Int) (i : Nat) (w : World) (self : Client) (line : String)
    (hself : w.clients.get? i = some self)
    (hchat : hasSigil ((goSplitNSpace 3 line.data).headD "") = false) :
    ((self.IsSilenced now || decide (goLen (self.name ++ ": " ++ line) > 1000)) = true →
      handleLine now i w line = enqueueSelf w i "-> Message rejected." ∧
      (handleLine now i w line).events = w.events ∧
      (handleLine now i w line).clients.get? i =
        some { self with msgs := self.msgs ++ ["-> Message rejected."] }) ∧
    ((self.IsSilenced now || decide (goLen (self.name ++ ": " ++ line) > 1000)) = false →
      handleLine now i w line =
        { w with events := w.events ++
            [REvent.broadcast (self.name ++ ": " ++ line) true] }) := by
  constructor
  · intro h
    have e : handleLine now i w line = enqueueSelf w i "-> Message rejected." := by
      simp only [handleLine, hself, Option.elim_some, hchat, h]
      simp
    have hself2 : w.clients[i]? = some self := by simpa using hself
    refine ⟨e, by rw [e]; rfl, ?_⟩
    rw [e]
    simp [enqueueSelf, modifyAt_get?_self, hself2]
  · intro h
    simp only [handleLine, hself, Option.elim_some, hchat, h]
    simp

/-- Witness for C1: in `wSil` the silenced alice has her chat line
rejected into her own mailbox; in `demoW` the same line is broadcast with
the sender excluded. -/
theorem chat_message_gate_witness :
    handleLine 5 0 wSil "hello" = enqueueSelf wSil 0 "-> Message rejected." ∧
    handleLine 0 0 demoW "hello" =
      { demoW with events := demoW.events ++
          [REvent.broadcast (alice.name ++ ": " ++ "hello") true] } :=
  ⟨((chat_message_gate 5 0 wSil silencedAlice "hello" (by decide) (by decide)).1 (by decide)).1,
   (chat_message_gate 0 0 demoW alice "hello" (by decide) (by decide)).2 (by decide)⟩

/-- Counterexample to C4 as stated: `/help` and `/about` leave the
session's own mailbox empty; the fixed texts are written line by line
directly to the terminal instead. -/
theorem help_mailbox_counterexample :
    ((handleLine 0 0 demoW "/help").clients.get? 0).map Client.msgs = some [] ∧
    ((handleLine 0 0 demoW "/help").clients.get? 0).map Client.termLines =
      some (goSplitCh HELP_TEXT '\n') ∧
    ((handleLine 0 0 demoW "/about").clients.get? 0).map Client.msgs = some [] ∧
    ((handleLine 0 0 demoW "/about").clients.get? 0).map Client.termLines =
      some (goSplitCh ABOUT_TEXT '\n') := by decide

/-- Amended C4: `/help` writes the fixed help text, split into lines,
directly to the session's own terminal, and `/about` likewise writes the
fixed about text; neither touches the mailbox or the registry. -/
theorem help_about_write_terminal (now : Int) (i : Nat) (w : World) (self : Client)
    (lineH lineA : String)
    (hself : w.clients.get? i = some self)
    (hH : (goSplitNSpace 3 lineH.data).headD "" = "/help")
    (hA : (goSplitNSpace 3 lineA.data).headD "" = "/about") :
    handleLine now i w lineH = writeLinesTo w i (goSplitCh HELP_TEXT '\n') ∧
    (handleLine now i w lineH).clients.get? i =
      some { self with termLines := self.termLines ++ goSplitCh HELP_TEXT '\n' } ∧
    ((handleLine now i w lineH).clients.get? i).map Client.msgs = some self.msgs ∧
    (handleLine now i w lineH).events = w.events ∧
    handleLine now i w lineA = writeLinesTo w i (goSplitCh ABOUT_TEXT '\n') ∧
    (handleLine now i w lineA).clients.get? i =
      some { self with termLines := self.termLines ++ goSplitCh ABOUT_TEXT '\n' } ∧
    ((handleLine now i w lineA).clients.get? i).map Client.msgs = some self.msgs ∧
    (handleLine now i w lineA).events = w.events := by
  have eH : handleLine now i w lineH = writeLinesTo w i (goSplitCh HELP_TEXT '\n') := by
    simp only [handleLine, hself, Option.elim_some, hH]
    simp +decide
  have eA : handleLine now i w lineA = writeLinesTo w i (goSplitCh ABOUT_TEXT '\n') := by
    simp only [handleLine, hself, Option.elim_some, hA]
    simp +decide
  have hself2 : w.clients[i]? = some self := by simpa using hself
  refine ⟨eH, ?_, ?_, by rw [eH]; rfl, eA, ?_, ?_, by rw [eA]; rfl⟩ <;>
    simp [eH, eA, writeLinesTo, modifyAt_get?_self, hself2]

/-- Witness for C4 at the demo world. -/
theorem help_about_write_terminal_witness :
    handleLine 0 0 demoW "/help" = writeLinesTo demoW 0 (goSplitCh HELP_TEXT '\n') ∧
    (handleLine 0 0 demoW "/help").clients.get? 0 =
      some { alice with termLines := alice.termLines ++ goSplitCh HELP_TEXT '\n' } ∧
    ((handleLine 0 0 demoW "/help").clients.get? 0).map Client.msgs = some alice.msgs ∧
    (handleLine 0 0 demoW "/help").events = demoW.events ∧
    handleLine 0 0 demoW "/about" = writeLinesTo demoW 0 (goSplitCh ABOUT_TEXT '\n') ∧
    (handleLine 0 0 demoW "/about").clients.get? 0 =
      some { alice with termLines := alice.termLines ++ goSplitCh ABOUT_TEXT '\n' } ∧
    ((handleLine 0 0 demoW "/about").clients.get? 0).map Client.msgs = some alice.msgs ∧
    (handleLine 0 0 demoW "/about").events = demoW.events :=
  help_about_write_terminal 0 0 demoW alice "/help" "/about" (by decide) (by decide) (by decide)

theorem findClient_get (n : String) (l : List Client) :
    ∀ (i j : Nat) (c : Client), findClient n i l = some (j, c) →
      i ≤ j ∧ l[j - i]? = some c ∧ c.name = n := by
  induction l with
  | nil => intro i j c h; simp [findClient] at h
  | cons a l ih =>
    intro i j c h
    by_cases ha : a.name = n
    · rw [findClient, if_pos ha] at h
      injection h with h2
      injection h2 with h3 h4
      subst h3
      subst h4
      simpa using ha
    · rw [findClient, if_neg ha] at h
      obtain ⟨h1, h2, h3⟩ := ih (i + 1) j c h
      refine ⟨by omega, ?_, h3⟩
      have hj : j - i = (j - (i + 1)) + 1 := by omega
      rw [hj]
      simpa using h2

/-- Counterexample to C3 as stated: after the operator alice issues
`/silence bob 10s`, bob's `silencedUntil` is set and the notice appears,
but bob's mailbox stays empty — the notice is written directly to bob's
terminal, not enqueued to his mailbox. -/
theorem silence_mailbox_counterexample :
    ((handleLine 0 0 demoW "/silence bob 10s").clients.get? 1).map Client.msgs = some [] ∧
    ((handleLine 0 0 demoW "/silence bob 10s").clients.get? 1).map Client.termLines =
      some ["-> Silenced for 10s by alice."] ∧
    ((handleLine 0 0 demoW "/silence bob 10s").clients.get? 1).map Client.silencedUntil =
      some 10000000000 := by decide

/-- Amended C3: when an operator issues `/silence` on an existing target
with a parseable duration `d`, the target's `silencedUntil` becomes
`now + d` and the single notice `"-> Silenced for <d> by <operator>."` is
written directly to the target's terminal; the target's mailbox is left
untouched and no registry mutation is logged. -/
theorem silence_applies_and_notifies (now d : Int) (i j : Nat) (w : World)
    (self tgt : Client) (line tname dtok : String)
    (hself : w.clients.get? i = some self)
    (hop : w.IsOp self = true)
    (hparts : goSplitNSpace 3 line.data = ["/silence", tname, dtok])
    (hd : parseDuration dtok = some d)
    (hfind : findClient tname 0 w.clients = some (j, tgt)) :
    handleLine now i w line =
      writeTo { w with clients := modifyAt j (fun c => c.Silence now d) w.clients } j
        ("-> Silenced for " ++ goDurationString d ++ " by " ++ self.name ++ ".") ∧
    (handleLine now i w line).clients.get? j =
      some { tgt with silencedUntil := now + d,
                      termLines := tgt.termLines ++
                        ["-> Silenced for " ++ goDurationString d ++ " by " ++
                          self.name ++ "."] } ∧
    ((handleLine now i w line).clients.get? j).map Client.msgs = some tgt.msgs ∧
    (handleLine now i w line).events = w.events := by
  have htgt : w.clients[j]? = some tgt := by
    simpa using (findClient_get tname w.clients 0 j tgt hfind).2.1
  have e : handleLine now i w line =
      writeTo { w with clients := modifyAt j (fun c => c.Silence now d) w.clients } j
        ("-> Silenced for " ++ goDurationString d ++ " by " ++ self.name ++ ".") := by
    simp only [handleLine, hself, Option.elim_some, hparts]
    simp +decide [hop, hd, hfind]
  refine ⟨e, ?_, ?_, by rw [e]; rfl⟩ <;>
    simp [e, writeTo, modifyAt_get?_self, htgt, Client.Silence]

/-- Witness for C3: alice silences bob for 10s in the demo world. -/
theorem silence_applies_and_notifies_witness :
    handleLine 0 0 demoW "/silence bob 10s" =
      writeTo { demoW with
          clients := modifyAt 1 (fun c => c.Silence 0 10000000000) demoW.clients } 1
        ("-> Silenced for " ++ goDurationString 10000000000 ++ " by " ++ alice.name ++ ".") ∧
    (handleLine 0 0 demoW "/silence bob 10s").clients.get? 1 =
      some { bob with silencedUntil := 0 + 10000000000,
                      termLines := bob.termLines ++
                        ["-> Silenced for " ++ goDurationString 10000000000 ++ " by " ++
                          alice.name ++ "."] } ∧
    ((handleLine 0 0 demoW "/silence bob 10s").clients.get? 1).map Client.msgs =
      some bob.msgs ∧
    (handleLine 0 0 demoW "/silence bob 10s").events = demoW.events :=
  silence_applies_and_notifies 0 10000000000 0 1 demoW alice bob "/silence bob 10s" "bob" "10s"
    (by decide) (by decide) (by decide) (by decide) (by decide)

/-- Claim C8: a `/silence` whose duration token fails the standard
duration grammar behaves identically to `/silence` with no duration
token, silently applying exactly the default 5-minute window
(300000000000 ns). -/
theorem silence_default_duration (now : Int) (i : Nat) (w : World) (self : Client)
    (lineA lineB tname dtok : String)
    (hself : w.clients.get? i = some self)
    (hop : w.IsOp self = true)
    (hpartsA : goSplitNSpace 3 lineA.data = ["/silence", tname, dtok])
    (hbad : parseDuration dtok = none)
    (hpartsB : goSplitNSpace 3 lineB.data = ["/silence", tname]) :
    handleLine now i w lineA = handleLine now i w lineB ∧
    (∀ (j : Nat) (tgt : Client), findClient tname 0 w.clients = some (j, tgt) →
      (handleLine now i w lineA).clients.get? j =
        some { tgt with silencedUntil := now + 300000000000,
                        termLines := tgt.termLines ++
                          ["-> Silenced for " ++ goDurationString 300000000000 ++ " by " ++
                            self.name ++ "."] }) := by
  have eA : handleLine now i w lineA =
      (findClient tname 0 w.clients).elim
        (enqueueSelf w i ("-> No such name: " ++ tname))
        (fun jc =>
          writeTo { w with clients := modifyAt jc.1 (fun c => c.Silence now 300000000000) w.clients }
            jc.1 ("-> Silenced for " ++ goDurationString 300000000000 ++ " by " ++ self.name ++ ".")) := by
    simp only [handleLine, hself, Option.elim_some, hpartsA]
    simp +decide [hop, hbad]
  have eB : handleLine now i w lineB =
      (findClient tname 0 w.clients).elim
        (enqueueSelf w i ("-> No such name: " ++ tname))
        (fun jc =>
          writeTo { w with clients := modifyAt jc.1 (fun c => c.Silence now 300000000000) w.clients }
            jc.1 ("-> Silenced for " ++ goDurationString 300000000000 ++ " by " ++ self.name ++ ".")) := by
    simp only [handleLine, hself, Option.elim_some, hpartsB]
    simp +decide [hop]
  refine ⟨eA.trans eB.symm, fun j tgt hfind => ?_⟩
  have htgt : w.clients[j]? = some tgt := by
    simpa using (findClient_get tname w.clients 0 j tgt hfind).2.1
  rw [eA, hfind]
  simp [writeTo, modifyAt_get?_self, htgt, Client.Silence]

/-- Witness for C8: `/silence bob abc123` equals `/silence bob` in the
demo world, both applying the 5-minute default. -/
theorem silence_default_duration_witness :
    handleLine 0 0 demoW "/silence bob abc123" = handleLine 0 0 demoW "/silence bob" ∧
    (handleLine 0 0 demoW "/silence bob abc123").clients.get? 1 =
      some { bob with silencedUntil := 0 + 300000000000,
                      termLines := bob.termLines ++
                        ["-> Silenced for " ++ goDurationString 300000000000 ++ " by " ++
                          alice.name ++ "."] } :=
  ⟨(silence_default_duration 0 0 demoW alice "/silence bob abc123" "/silence bob" "bob" "abc123"
      (by decide) (by decide) (by decide) (by decide) (by decide)).1,
   (silence_default_duration 0 0 demoW alice "/silence bob abc123" "/silence bob" "bob" "abc123"
      (by decide) (by decide) (by decide) (by decide) (by decide)).2 1 bob (by decide)⟩

/-- Claim C9: `/me` builds the action line `"** name<text>"` where
`<text>` is everything after the verb (the default suffix
`" is at a loss for words."` when it is empty), applies the same
silence/length gate as plain chat, and on success broadcasts with no
exclusion (the sender gets their own action line).  A dispatching `/me`
line is `"/me"` followed by a remainder that is empty or starts with a
space, represented here by the character list `rd`. -/
theorem me_command (now : Int) (i : Nat) (w : World) (self : Client) (rd : List Char)
    (hself : w.clients.get? i = some self)
    (hrd : rd.headD ' ' = ' ') :
    ((self.IsSilenced now ||
        decide (goLen ("** " ++ self.name ++
          (if String.mk rd = "" then " is at a loss for words." else String.mk rd)) > 1000)) =
          true →
      handleLine now i w (String.mk ('/' :: 'm' :: 'e' :: rd)) =
        enqueueSelf w i "-> Message rejected.") ∧
    ((self.IsSilenced now ||
        decide (goLen ("** " ++ self.name ++
          (if String.mk rd = "" then " is at a loss for words." else String.mk rd)) > 1000)) =
          false →
      handleLine now i w (String.mk ('/' :: 'm' :: 'e' :: rd)) =
        { w with events := w.events ++
            [REvent.broadcast ("** " ++ self.name ++
              (if String.mk rd = "" then " is at a loss for words." else String.mk rd))
              false] }) := by
  have hverb :
      (goSplitNSpace 3 (String.mk ('/' :: 'm' :: 'e' :: rd)).data).headD "" = "/me" := by
    cases rd with
    | nil => decide
    | cons c t =>
      have hc : c = ' ' := by simpa using hrd
      subst hc
      simp +decide [goSplitNSpace, breakCh]
  have htrim : goTrimLeft (String.mk ('/' :: 'm' :: 'e' :: rd)) "/me" = String.mk rd := by
    cases rd with
    | nil => decide
    | cons c t =>
      have hc : c = ' ' := by simpa using hrd
      subst hc
      simp +decide [goTrimLeft, List.dropWhile_cons]
  constructor
  · intro h
    simp only [handleLine, hself, Option.elim_some, hverb, htrim, h]
    simp +decide
  · intro h
    simp only [handleLine, hself, Option.elim_some, hverb, htrim, h]
    simp +decide

/-- Witness for C9: `/me hi` from alice broadcasts `"** alice hi"` with no
exclusion. -/
theorem me_command_witness :
    handleLine 0 0 demoW (String.mk ('/' :: 'm' :: 'e' :: [' ', 'h', 'i'])) =
      { demoW with events := demoW.events ++
          [REvent.broadcast ("** " ++ alice.name ++
            (if String.mk [' ', 'h', 'i'] = "" then " is at a loss for words."
             else String.mk [' ', 'h', 'i'])) false] } :=
  (me_command 0 0 demoW alice [' ', 'h', 'i'] (by decide) (by decide)).2 (by decide)

theorem goSplitNSpace_length_le : ∀ (n : Nat) (cs : List Char), (goSplitNSpace n cs).length ≤ n
  | 0, cs => by simp [goSplitNSpace]
  | 1, cs => by simp [goSplitNSpace]
  | n + 2, cs => by
    simp only [goSplitNSpace]
    cases h : breakCh ' ' cs with
    | none => simp
    | some pr =>
      have := goSplitNSpace_length_le (n + 1) pr.2
      simpa using this

theorem goSplitNSpace_shape2 (line v : String)
    (hhead : (goSplitNSpace 3 line.data).headD "" = v)
    (hlen : (goSplitNSpace 3 line.data).length = 2) :
    ∃ t, goSplitNSpace 3 line.data = [v, t] := by
  rcases e : goSplitNSpace 3 line.data with _ | ⟨a, _ | ⟨b, _ | ⟨c, r⟩⟩⟩
  · rw [e] at hlen
    simp at hlen
  · rw [e] at hlen
    simp at hlen
  · rw [e] at hhead
    simp at hhead
    exact ⟨b, by rw [hhead]⟩
  · rw [e] at hlen
    simp at hlen

theorem goSplitNSpace_shape23 (line v : String)
    (hhead : (goSplitNSpace 3 line.data).headD "" = v)
    (hlen : 2 ≤ (goSplitNSpace 3 line.data).length) :
    (∃ t, goSplitNSpace 3 line.data = [v, t]) ∨
      (∃ t u, goSplitNSpace 3 line.data = [v, t, u]) := by
  have hub : (goSplitNSpace 3 line.data).length ≤ 3 := goSplitNSpace_length_le 3 line.data
  rcases e : goSplitNSpace 3 line.data with _ | ⟨a, _ | ⟨b, _ | ⟨c, _ | ⟨d4, r⟩⟩⟩⟩
  · rw [e] at hlen
    simp at hlen
  · rw [e] at hlen
    simp at hlen
  · rw [e] at hhead
    simp at hhead
    exact Or.inl ⟨b, by rw [hhead]⟩
  · rw [e] at hhead
    simp at hhead
    exact Or.inr ⟨b, c, by rw [hhead]⟩
  · rw [e] at hub
    simp at hub

/-- Claim C5: for `/ban`, `/op` and `/silence`, the checks run in the
order operator, argument count, target lookup; each failing check
short-circuits with its own distinct notice enqueued to the issuer and
performs no registry mutation; in particular a non-operator never
triggers the corresponding mutation and gets exactly the denial notice. -/
theorem moderation_guard_order (now : Int) (i : Nat) (w : World) (self : Client)
    (line verb : String)
    (hself : w.clients.get? i = some self)
    (hverb : verb = "/ban" ∨ verb = "/op" ∨ verb = "/silence")
    (hhead : (goSplitNSpace 3 line.data).headD "" = verb) :
    (w.IsOp self = false →
      handleLine now i w line = enqueueSelf w i "-> You're not an admin." ∧
      (handleLine now i w line).events = w.events ∧
      (handleLine now i w line).ops = w.ops ∧
      (handleLine now i w line).bans = w.bans ∧
      (handleLine now i w line).clients.get? i =
        some { self with msgs := self.msgs ++ ["-> You're not an admin."] } ∧
      (∀ k, ¬k = i → (handleLine now i w line).clients.get? k = w.clients.get? k)) ∧
    (w.IsOp self = true →
      (if verb = "/silence" then (goSplitNSpace 3 line.data).length < 2
       else ¬(goSplitNSpace 3 line.data).length = 2) →
      handleLine now i w line =
        enqueueSelf w i ("-> Missing $NAME from: " ++ verb ++ " $NAME")) ∧
    (w.IsOp self = true →
      ¬(if verb = "/silence" then (goSplitNSpace 3 line.data).length < 2
        else ¬(goSplitNSpace 3 line.data).length = 2) →
      findClient ((goSplitNSpace 3 line.data).getD 1 "") 0 w.clients = none →
      handleLine now i w line =
        enqueueSelf w i ("-> No such name: " ++ (goSplitNSpace 3 line.data).getD 1 "")) ∧
    (¬"-> You're not an admin." = "-> Missing $NAME from: " ++ verb ++ " $NAME" ∧
      (∀ t : String, ¬("-> No such name: " ++ t) = "-> You're not an admin." ∧
        ¬("-> No such name: " ++ t) = "-> Missing $NAME from: " ++ verb ++ " $NAME")) ∧
    (∀ s : String, (enqueueSelf w i s).events = w.events ∧
      (enqueueSelf w i s).ops = w.ops ∧ (enqueueSelf w i s).bans = w.bans) := by
  have hself2 : w.clients[i]? = some self := by simpa using hself
  have hs3 : ∀ t : String, ("-> No such name: " ++ t).data[3]? = some 'N' := by
    intro t
    rw [strData_append, List.getElem?_append_left (by decide)]
    decide
  rcases hverb with hv | hv | hv <;> subst hv
  case inl =>
    refine ⟨fun hop => ?_, fun hop hargc => ?_, fun hop hargc hfind => ?_, ?_, fun s => ⟨rfl, rfl, rfl⟩⟩
    · have e : handleLine now i w line = enqueueSelf w i "-> You're not an admin." := by
        simp only [handleLine, hself, Option.elim_some, hhead, hop]
        simp +decide
      refine ⟨e, by rw [e]; rfl, by rw [e]; rfl, by rw [e]; rfl, ?_, fun k hk => ?_⟩
      · rw [e]
        simp [enqueueSelf, modifyAt_get?_self, hself2]
      · rw [e]
        simp [enqueueSelf, modifyAt_get?_ne i k _ _ hk]
    · rw [if_neg (by decide)] at hargc
      simp only [handleLine, hself, Option.elim_some, hhead, hop]
      simp +decide [if_pos hargc]
    · rw [if_neg (by decide)] at hargc
      have hlen : (goSplitNSpace 3 line.data).length = 2 := not_not.mp hargc
      obtain ⟨t, hp⟩ := goSplitNSpace_shape2 line "/ban" hhead hlen
      rw [hp] at hfind
      simp at hfind
      simp only [handleLine, hself, Option.elim_some, hp]
      simp +decide [hop, hfind]
    · exact ⟨by decide, fun t =>
        ⟨ne_of_nthChar _ _ 3 'N' 'Y' (hs3 t) (by decide) (by decide),
         ne_of_nthChar _ _ 3 'N' 'M' (hs3 t) (by decide) (by decide)⟩⟩
  case inr.inl =>
    refine ⟨fun hop => ?_, fun hop hargc => ?_, fun hop hargc hfind => ?_, ?_, fun s => ⟨rfl, rfl, rfl⟩⟩
    · have e : handleLine now i w line = enqueueSelf w i "-> You're not an admin." := by
        simp only [handleLine, hself, Option.elim_some, hhead, hop]
        simp +decide
      refine ⟨e, by rw [e]; rfl, by rw [e]; rfl, by rw [e]; rfl, ?_, fun k hk => ?_⟩
      · rw [e]
        simp [enqueueSelf, modifyAt_get?_self, hself2]
      · rw [e]
        simp [enqueueSelf, modifyAt_get?_ne i k _ _ hk]
    · rw [if_neg (by decide)] at hargc
      simp only [handleLine, hself, Option.elim_some, hhead, hop]
      simp +decide [if_pos hargc]
    · rw [if_neg (by decide)] at hargc
      have hlen : (goSplitNSpace 3 line.data).length = 2 := not_not.mp hargc
      obtain ⟨t, hp⟩ := goSplitNSpace_shape2 line "/op" hhead hlen
      rw [hp] at hfind
      simp at hfind
      simp only [handleLine, hself, Option.elim_some, hp]
      simp +decide [hop, hfind]
    · exact ⟨by decide, fun t =>
        ⟨ne_of_nthChar _ _ 3 'N' 'Y' (hs3 t) (by decide) (by decide),
         ne_of_nthChar _ _ 3 'N' 'M' (hs3 t) (by decide) (by decide)⟩⟩
  case inr.inr =>
    refine ⟨fun hop => ?_, fun hop hargc => ?_, fun hop hargc hfind => ?_, ?_, fun s => ⟨rfl, rfl, rfl⟩⟩
    · have e : handleLine now i w line = enqueueSelf w i "-> You're not an admin." := by
        simp only [handleLine, hself, Option.elim_some, hhead, hop]
        simp +decide
      refine ⟨e, by rw [e]; rfl, by rw [e]; rfl, by rw [e]; rfl, ?_, fun k hk => ?_⟩
      · rw [e]
        simp [enqueueSelf, modifyAt_get?_self, hself2]
      · rw [e]
        simp [enqueueSelf, modifyAt_get?_ne i k _ _ hk]
    · rw [if_pos rfl] at hargc
      simp only [handleLine, hself, Option.elim_some, hhead, hop]
      simp +decide [if_pos hargc]
    · rw [if_pos rfl] at hargc
      have hlen : 2 ≤ (goSplitNSpace 3 line.data).length := by omega
      rcases goSplitNSpace_shape23 line "/silence" hhead hlen with ⟨t, hp⟩ | ⟨t, u, hp⟩ <;>
        rw [hp] at hfind <;> simp at hfind <;>
        simp only [handleLine, hself, Option.elim_some, hp] <;>
        simp +decide [hop, hfind]
    · exact ⟨by decide, fun t =>
        ⟨ne_of_nthChar _ _ 3 'N' 'Y' (hs3 t) (by decide) (by decide),
         ne_of_nthChar _ _ 3 'N' 'M' (hs3 t) (by decide) (by decide)⟩⟩

/-- Witness for C5: a non-operator `/ban` is denied; an operator `/ban`
with no argument gets the missing-argument notice; an operator `/op` on
an unknown name gets the no-such-name notice. -/
theorem moderation_guard_order_witness :
    handleLine 0 0 demoWNoOp "/ban bob" = enqueueSelf demoWNoOp 0 "-> You're not an admin." ∧
    handleLine 0 0 demoW "/ban" =
      enqueueSelf demoW 0 ("-> Missing $NAME from: " ++ "/ban" ++ " $NAME") ∧
    handleLine 0 0 demoW "/op carol" =
      enqueueSelf demoW 0
        ("-> No such name: " ++ (goSplitNSpace 3 "/op carol".data).getD 1 "") :=
  ⟨((moderation_guard_order 0 0 demoWNoOp alice "/ban bob" "/ban" (by decide) (Or.inl rfl)
      (by decide)).1 (by decide)).1,
   (moderation_guard_order 0 0 demoW alice "/ban" "/ban" (by decide) (Or.inl rfl)
      (by decide)).2.1 (by decide) (by decide),
   (moderation_guard_order 0 0 demoW alice "/op carol" "/op" (by decide)
      (Or.inr (Or.inl rfl)) (by decide)).2.2.1 (by decide) (by decide) (by decide)⟩

theorem shellOutsL_append (l : List (ChanRequest × Bool)) (x : ChanRequest × Bool) :
    shellOutsL (l ++ [x]) =
      shellOutsL l ++ (if x.1.rtype = ReqType.shell then [x.2] else []) := by
  by_cases h : x.1.rtype = ReqType.shell <;>
    simp [shellOutsL, List.filter_append, List.filter, h]

theorem applyGeom_fields (f : Nat → Nat → Bool) (st : DState) (parsed : Option (Nat × Nat)) :
    (applyGeom f st parsed).1.hasShell = st.hasShell ∧
    (applyGeom f st parsed).1.spawns = st.spawns ∧
    (applyGeom f st parsed).1.outcomes = st.outcomes := by
  match parsed with
  | none => exact ⟨rfl, rfl, rfl⟩
  | some (wd, ht) =>
    by_cases h : f wd ht = true <;> simp [applyGeom, Resize, h]

theorem processRequest_shell_true (f : Nat → Nat → Bool) (st : DState) (r : ChanRequest)
    (hr : r.rtype = ReqType.shell) (h : st.hasShell = true) :
    processRequest f st r = { st with outcomes := st.outcomes ++ [(r, false)] } := by
  simp [processRequest, hr, h]

theorem processRequest_shell_new (f : Nat → Nat → Bool) (st : DState) (r : ChanRequest)
    (hr : r.rtype = ReqType.shell) (h : st.hasShell = false) :
    processRequest f st r =
      { st with hasShell := true, spawns := st.spawns + 1,
                outcomes := st.outcomes ++ [(r, true)] } := by
  simp [processRequest, hr, h]

theorem processRequest_nonshell_fields (f : Nat → Nat → Bool) (st : DState) (r : ChanRequest)
    (hr : ¬r.rtype = ReqType.shell) :
    (processRequest f st r).hasShell = st.hasShell ∧
    (processRequest f st r).spawns = st.spawns ∧
    shellOutcomes (processRequest f st r) = shellOutcomes st := by
  rcases r with ⟨rt, wr⟩
  match rt with
  | ReqType.shell => exact absurd rfl hr
  | ReqType.ptyReq p =>
    obtain ⟨f1, f2, f3⟩ := applyGeom_fields f st (parsePtyRequest p)
    refine ⟨by simp [processRequest, f1], by simp [processRequest, f2], ?_⟩
    simp only [processRequest, shellOutcomes]
    rw [shellOutsL_append]
    simp [f3]
  | ReqType.windowChange p =>
    obtain ⟨f1, f2, f3⟩ := applyGeom_fields f st (parseWinchRequest p)
    refine ⟨by simp [processRequest, f1], by simp [processRequest, f2], ?_⟩
    simp only [processRequest, shellOutcomes]
    rw [shellOutsL_append]
    simp [f3]
  | ReqType.other s =>
    refine ⟨rfl, rfl, ?_⟩
    simp only [processRequest, shellOutcomes]
    rw [shellOutsL_append]
    simp

theorem countShellReqList_cons (r : ChanRequest) (rs : List ChanRequest) :
    countShellReqList (r :: rs) =
      (if r.rtype = ReqType.shell then 1 else 0) + countShellReqList rs := by
  by_cases h : r.rtype = ReqType.shell <;>
    simp [countShellReqList, List.filter_cons, h, Nat.add_comm]

theorem foldReq_invariant (f : Nat → Nat → Bool) :
    ∀ (rs : List ChanRequest) (st : DState),
      shellOutcomes (rs.foldl (processRequest f) st) =
        shellOutcomes st ++
          (if st.hasShell = true then List.replicate (countShellReqList rs) false
           else shellPattern (countShellReqList rs)) ∧
      (rs.foldl (processRequest f) st).spawns =
        st.spawns + (if st.hasShell = true then 0 else min (countShellReqList rs) 1) ∧
      ((rs.foldl (processRequest f) st).hasShell = true ↔
        (st.hasShell = true ∨ 0 < countShellReqList rs)) := by
  intro rs
  induction rs with
  | nil =>
    intro st
    simp [countShellReqList, shellPattern]
  | cons r rs ih =>
    intro st
    rw [List.foldl_cons]
    by_cases hr : r.rtype = ReqType.shell
    · have hc : countShellReqList (r :: rs) = countShellReqList rs + 1 := by
        rw [countShellReqList_cons, if_pos hr]
        omega
      by_cases hs : st.hasShell = true
      · rw [processRequest_shell_true f st r hr hs]
        obtain ⟨i1, i2, i3⟩ := ih { st with outcomes := st.outcomes ++ [(r, false)] }
        refine ⟨?_, ?_, ?_⟩
        · rw [i1]
          simp only [shellOutcomes]
          rw [shellOutsL_append]
          simp [hr, hs, hc, List.replicate_succ]
        · rw [i2]
          simp [hs]
        · rw [i3]
          simp [hs]
      · simp only [Bool.not_eq_true] at hs
        rw [processRequest_shell_new f st r hr hs]
        obtain ⟨i1, i2, i3⟩ := ih
          { st with hasShell := true, spawns := st.spawns + 1,
                    outcomes := st.outcomes ++ [(r, true)] }
        refine ⟨?_, ?_, ?_⟩
        · rw [i1]
          simp only [shellOutcomes]
          rw [shellOutsL_append]
          simp [hr, hs, hc, shellPattern, List.replicate_succ]
        · rw [i2]
          simp [hs, hc]
        · rw [i3]
          simp [hs, hc]
    · have hc : countShellReqList (r :: rs) = countShellReqList rs := by
        rw [countShellReqList_cons, if_neg hr]
        omega
      obtain ⟨f1, f2, f3⟩ := processRequest_nonshell_fields f st r hr
      obtain ⟨i1, i2, i3⟩ := ih (processRequest f st r)
      exact ⟨by rw [i1, f1, f3, hc], by rw [i2, f1, f2, hc], by rw [i3, f1, hc]⟩

theorem runChannels_invariant (f : Nat → Nat → Bool) :
    ∀ (chans : List NewChannel) (st : DState),
      shellOutcomes (runChannels f st chans) =
        shellOutcomes st ++
          (if st.hasShell = true then List.replicate (countShellChans chans) false
           else shellPattern (countShellChans chans)) ∧
      (runChannels f st chans).spawns =
        st.spawns + (if st.hasShell = true then 0 else min (countShellChans chans) 1) ∧
      ((runChannels f st chans).hasShell = true ↔
        (st.hasShell = true ∨ 0 < countShellChans chans)) := by
  intro chans
  induction chans with
  | nil =>
    intro st
    simp [runChannels, countShellChans, shellPattern]
  | cons ch rest ih =>
    intro st
    rw [runChannels]
    by_cases hch : ch.chanType = "session" ∧ ch.acceptOk = true
    · rw [if_pos hch]
      obtain ⟨a1, a2, a3⟩ := foldReq_invariant f ch.reqs st
      obtain ⟨b1, b2, b3⟩ := ih (ch.reqs.foldl (processRequest f) st)
      have hcount : countShellChans (ch :: rest) =
          countShellReqList ch.reqs + countShellChans rest := by
        simp [countShellChans, hch]
      refine ⟨?_, ?_, ?_⟩
      · rw [b1, a1, hcount]
        by_cases hs : st.hasShell = true
        · have hf : (ch.reqs.foldl (processRequest f) st).hasShell = true :=
            a3.mpr (Or.inl hs)
          rw [if_pos hs, if_pos hs, if_pos hf, List.replicate_add, List.append_assoc]
        · have hs2 : ¬st.hasShell = true := hs
          match hk : countShellReqList ch.reqs with
          | 0 =>
            have hf : ¬(ch.reqs.foldl (processRequest f) st).hasShell = true := by
              intro h
              rcases a3.mp h with h2 | h2
              · exact hs2 h2
              · rw [hk] at h2
                omega
            rw [if_neg hs2, if_neg hs2, if_neg hf]
            simp [shellPattern]
          | k + 1 =>
            have hf : (ch.reqs.foldl (processRequest f) st).hasShell = true :=
              a3.mpr (Or.inr (by omega))
            rw [if_neg hs2, if_neg hs2, if_pos hf]
            have harr : k + 1 + countShellChans rest = k + countShellChans rest + 1 := by
              omega
            rw [harr]
            simp only [shellPattern]
            rw [List.replicate_add]
            simp
      · rw [b2, a2, hcount]
        by_cases hs : st.hasShell = true
        · have hf : (ch.reqs.foldl (processRequest f) st).hasShell = true :=
            a3.mpr (Or.inl hs)
          rw [if_pos hs, if_pos hs, if_pos hf]
        · have hs2 : ¬st.hasShell = true := hs
          match hk : countShellReqList ch.reqs with
          | 0 =>
            have hf : ¬(ch.reqs.foldl (processRequest f) st).hasShell = true := by
              intro h
              rcases a3.mp h with h2 | h2
              · exact hs2 h2
              · rw [hk] at h2
                omega
            rw [if_neg hs2, if_neg hs2, if_neg hf]
            omega
          | k + 1 =>
            have hf : (ch.reqs.foldl (processRequest f) st).hasShell = true :=
              a3.mpr (Or.inr (by omega))
            rw [if_neg hs2, if_neg hs2, if_pos hf]
            omega
      · rw [b3, a3, hcount]
        by_cases hs : st.hasShell = true <;> simp [hs]
    · rw [if_neg hch]
      obtain ⟨b1, b2, b3⟩ := ih st
      have hcount : countShellChans (ch :: rest) = countShellChans rest := by
        simp [countShellChans, hch]
      exact ⟨by rw [b1, hcount], by rw [b2, hcount], by rw [b3, hcount]⟩

/-- Counterexample to C2 as stated: a connection opening two session
channels, each sending one shell request, spawns only one command loop;
the second channel's first shell request is answered `ok = false`, so the
channels cannot each independently spawn their own loop and pump. -/
theorem shell_guard_counterexample :
    shellOutcomes (handleChannels (fun _ _ => true) demoChans) = [true, false] ∧
    ¬(handleChannels (fun _ _ => true) demoChans).spawns = 2 ∧
    (handleChannels (fun _ _ => true) demoChans).spawns = 1 := by decide

/-- Amended C2: the one-shot shell guard is scoped to the whole
connection (one `handleChannels` invocation), not to a single channel:
across all accepted session channels of the connection, only the first
shell request starts the command loop and is answered success; every
later shell request, on the same or a different channel, is ignored
(`ok = false`), so at most one command loop is ever spawned. -/
theorem shell_guard_connection_scoped (f : Nat → Nat → Bool) (chans : List NewChannel) :
    shellOutcomes (handleChannels f chans) = shellPattern (countShellChans chans) ∧
    (handleChannels f chans).spawns = min (countShellChans chans) 1 ∧
    (handleChannels f chans).spawns ≤ 1 := by
  obtain ⟨a1, a2, a3⟩ := runChannels_invariant f chans initDState
  rw [handleChannels]
  have h0 : shellOutcomes initDState = [] := rfl
  have hf : initDState.hasShell = true ↔ False := by simp [initDState]
  refine ⟨?_, ?_, ?_⟩
  · rw [a1, h0]
    rw [if_neg (fun h => hf.mp h)]
    simp
  · rw [a2, if_neg (fun h => hf.mp h)]
    simp [initDState]
  · rw [a2, if_neg (fun h => hf.mp h)]
    simp [initDState]

end SshChat
